import Mathlib

/-!
Verification of the DSFL fantasy-league backend's temporal roster-aware
scoring engine against its specification.

The development shallowly embeds the persistent data model (SQLAlchemy rows
become Lean structures, tables become lists of rows) and the operations of
`admin_routes.py` and `models.py` that the claims concern:

* `update_team_total_points` — the full team-points recompute;
* `delete_game` — match deletion followed by a recompute;
* `TeamPlayer.add_player` / `TeamPlayer.remove_player` — roster mutations;
* `add_match_performance` — validated performance submission.

Strings occurring in the source (match names, history action tags, error
messages) are compared only for equality there, so they are modelled as
opaque tokens (`Nat` identifiers and small enumerations).  Timestamps are
modelled as integers compared as absolute instants.  SQL queries ordering
by a column are modelled by a stable insertion sort on that column, which
matches the stable `ORDER BY` semantics the code relies on.
-/

namespace DSFL

/-- Stable insertion of `a` into `l`: `a` is placed after every element `b`
with `le b a`, so equal keys keep their original relative order. -/
def insertByLe (le : α → α → Bool) (a : α) : List α → List α
  | [] => [a]
  | b :: bs => if le b a then b :: insertByLe le a bs else a :: b :: bs

/-- Stable sort by the boolean relation `le`; models a SQL `ORDER BY`. -/
def stableSortByLe (le : α → α → Bool) (l : List α) : List α :=
  l.foldl (fun acc a => insertByLe le a acc) []

/-- Lookup in a Python-dict association list with a default, modelling
`d.get(k, dflt)`. -/
def dictGetD (d : List (Nat × Int)) (k : Nat) (dflt : Int) : Int :=
  match d.find? (fun kv => kv.fst == k) with
  | some kv => kv.snd
  | none => dflt

/-- Update of a Python-dict association list, modelling `d[k] = v`:
replaces the binding of `k` if present, appends it otherwise. -/
def dictSet (d : List (Nat × Int)) (k : Nat) (v : Int) : List (Nat × Int) :=
  match d with
  | [] => [(k, v)]
  | kv :: rest => if kv.fst == k then (k, v) :: rest else kv :: dictSet rest k v

/-- Row of the `team` table (`models.Team`).  `name` is an opaque token. -/
structure Team where
  id : Nat
  name : Nat
  total_points : Int
deriving DecidableEq

/-- Row of the `match` table (`models.Match`).  `date` is the timestamp that
orders all temporal roster logic; `name` is an opaque unique token. -/
structure GameMatch where
  id : Nat
  name : Nat
  date : Int
deriving DecidableEq

/-- Row of the `team_players` table (`models.TeamPlayer`).  The composite
primary key is `(team_id, player_id)`, so a table never holds two rows with
the same pair.  `removed_date = none` models SQL `NULL`. -/
structure TeamPlayer where
  team_id : Nat
  player_id : Int
  is_captain : Bool
  added_date : Int
  removed_date : Option Int
deriving DecidableEq

/-- Row of the `player_performance` table (`models.PlayerPerformance`).
`points` is kept optional because `update_team_total_points` guards on
`performance.points is not None`. -/
structure PlayerPerformance where
  id : Nat
  player_id : Int
  match_id : Nat
  goals : Int
  assists : Int
  clean_sheet : Bool
  goals_conceded : Int
  yellow_cards : Int
  red_cards : Int
  minutes_played : Int
  bonus_points : Int
  points : Option Int
deriving DecidableEq

/-- The tag stored in `TeamPlayerHistory.action` (a string in the source,
only ever the literals `add` and `remove`). -/
inductive RosterAction where
  | addAction
  | removeAction
deriving DecidableEq

/-- Row of the `team_player_history` table (`models.TeamPlayerHistory`). -/
structure TeamPlayerHistory where
  team_id : Nat
  player_id : Int
  action : RosterAction
  match_id : Option Nat
deriving DecidableEq

/-- The persistent database state read and written by the admin routes.
`players` holds the ids of the `player` table rows (the routes under
scrutiny use players only for existence checks). -/
structure DB where
  players : List Int
  games : List GameMatch
  teams : List Team
  team_players : List TeamPlayer
  performances : List PlayerPerformance
deriving DecidableEq

/-- `Match.query.order_by(Match.date).all()`. -/
def sortMatchesByDate (ms : List GameMatch) : List GameMatch :=
  stableSortByLe (fun a b => decide (a.date ≤ b.date)) ms

/-- `query(TeamPlayer).filter(team_id == ...).order_by(TeamPlayer.added_date)`,
applied to an already team-filtered list. -/
def sortTeamPlayersByAdded (tps : List TeamPlayer) : List TeamPlayer :=
  stableSortByLe (fun a b => decide (a.added_date ≤ b.added_date)) tps

/-- The active-membership predicate of `update_team_total_points`
(admin_routes.py lines 69-73): `tp.added_date <= match.date and
(tp.removed_date is None or tp.removed_date > match.date)`. -/
def isActiveAt (tp : TeamPlayer) (t : Int) : Bool :=
  decide (tp.added_date ≤ t) &&
    match tp.removed_date with
    | none => true
    | some r => decide (r > t)

/-- Lookup of a player's performance row for a match.  The source builds
`match_performances[match.id] = {p.player_id: p for p in performances}` from
the rows filtered by `match_id`; Python dict comprehension keeps the last
row per key, hence `getLast?`. -/
def perfFor (perfs : List PlayerPerformance) (mid : Nat) (pid : Int) :
    Option PlayerPerformance :=
  ((perfs.filter (fun p => p.match_id == mid)).filter
    (fun p => p.player_id == pid)).getLast?

/-- Points one membership row contributes for one performance lookup
(admin_routes.py lines 86-102): missing row or `None` points contribute 0,
and a captain's points are doubled. -/
def performancePoints (tp : TeamPlayer) (perf : Option PlayerPerformance) : Int :=
  match perf with
  | some p =>
    match p.points with
    | some pts => if tp.is_captain then pts * 2 else pts
    | none => 0
  | none => 0

/-- Whether a membership row counts as having `played` the match: a
performance row is present and its points are not `None` (the source's
`match_players` counter increments exactly then). -/
def playedInMatch (perfs : List PlayerPerformance) (m : GameMatch)
    (tp : TeamPlayer) : Bool :=
  ((perfFor perfs m.id tp.player_id).bind (fun p => p.points)).isSome

/-- Amount added to `team_points[team.id]` for one match (the body of the
match loop in `update_team_total_points`): the sum over active memberships
of their performance points, added only when `match_players > 0`. -/
def teamMatchDelta (perfs : List PlayerPerformance) (tps : List TeamPlayer)
    (m : GameMatch) : Int :=
  let active := tps.filter (fun tp => isActiveAt tp m.date)
  let pts := (active.map
    (fun tp => performancePoints tp (perfFor perfs m.id tp.player_id))).sum
  let played := active.countP (playedInMatch perfs m)
  if played > 0 then pts else 0

/-- Total accumulated into `team_points[tid]` by the loops of
`update_team_total_points` for the team with id `tid`: its memberships
ordered by `added_date`, then every match in date order contributes its
delta.  (A team with no membership rows is skipped by the source via
`continue`, which coincides with all its deltas being 0.) -/
def teamPointsFor (db : DB) (tid : Nat) : Int :=
  let tps := sortTeamPlayersByAdded
    (db.team_players.filter (fun tp => tp.team_id == tid))
  ((sortMatchesByDate db.games).map (fun m => teamMatchDelta db.performances tps m)).sum

/-- `team_points = {team.id: 0 for team in teams}`. -/
def initTeamPoints (teams : List Team) : List (Nat × Int) :=
  teams.foldl (fun d t => dictSet d t.id 0) []

/-- The team loop of `update_team_total_points`: processing team `t` adds
exactly `teamPointsFor db t.id` into the dict slot `t.id` (the per-match
`+=` increments touch no other key). -/
def accumulateTeams (db : DB) (teams : List Team) (d : List (Nat × Int)) :
    List (Nat × Int) :=
  teams.foldl (fun d t => dictSet d t.id (dictGetD d t.id 0 + teamPointsFor db t.id)) d

/-- The `team_points` dictionary as returned by `update_team_total_points`. -/
def computeTeamPoints (db : DB) : List (Nat × Int) :=
  accumulateTeams db db.teams (initTeamPoints db.teams)

/-- The write-back loop: `team.total_points = team_points.get(team.id, 0)`
for every team row. -/
def writeTotals (teams : List Team) (pts : List (Nat × Int)) : List Team :=
  teams.map (fun t => { t with total_points := dictGetD pts t.id 0 })

/-- `update_team_total_points` with the commit outcome made explicit.
Matches admin_routes.py lines 19-128: early return of an empty dict when
there are no matches or no teams; otherwise all totals are staged and a
single `db.session.commit()` either persists them all (`commitOk = true`)
or raises, in which case `db.session.rollback()` discards every staged
change and the exception is re-raised (`Except.error`). -/
def update_team_total_points_r (db : DB) (commitOk : Bool) :
    Except Unit (List (Nat × Int)) × DB :=
  if (sortMatchesByDate db.games).isEmpty then (Except.ok [], db)
  else if db.teams.isEmpty then (Except.ok [], db)
  else
    let pts := computeTeamPoints db
    if commitOk then
      (Except.ok pts, { db with teams := writeTotals db.teams pts })
    else
      (Except.error (), db)

/-- `update_team_total_points` on the successful-commit path: returns the
`team_points` mapping and the updated database state. -/
def update_team_total_points (db : DB) : List (Nat × Int) × DB :=
  if (sortMatchesByDate db.games).isEmpty then ([], db)
  else if db.teams.isEmpty then ([], db)
  else
    let pts := computeTeamPoints db
    (pts, { db with teams := writeTotals db.teams pts })

/-- The amount one match contributes to one team's recomputed total. -/
def matchContribution (db : DB) (tid : Nat) (m : GameMatch) : Int :=
  teamMatchDelta db.performances
    (sortTeamPlayersByAdded (db.team_players.filter (fun tp => tp.team_id == tid)))
    m

/-- `delete_game` (admin_routes.py lines 458-481): 404 when the match id is
unknown; otherwise delete the match's performance rows and the match row
(`match.id` is the primary key, so the filters remove exactly that match's
rows), commit, and run the recompute. -/
def delete_game (db : DB) (gid : Nat) : Option DB :=
  match db.games.find? (fun m => m.id == gid) with
  | none => none
  | some _ =>
    let db1 : DB := { db with
      performances := db.performances.filter (fun p => ¬ (p.match_id == gid)),
      games := db.games.filter (fun m => ¬ (m.id == gid)) }
    some (update_team_total_points db1).2

/-- Session-aware view of the roster tables used by `TeamPlayer.add_player`
and `TeamPlayer.remove_player`.  `pending` holds the `(team_id, player_id)`
pairs of membership rows that have been inserted into the session but not
yet flushed to the database: for exactly those rows
`db.inspect(self).persistent` is false. -/
structure RosterDB where
  memberships : List TeamPlayer
  pending : List (Nat × Int)
  history : List TeamPlayerHistory
deriving DecidableEq

/-- A `commit` (or flush) of the session: every inserted membership row
becomes persistent. -/
def commitSession (s : RosterDB) : RosterDB :=
  { s with pending := [] }

/-- `TeamPlayer.remove_player` (models.py lines 85-97), lifted to the state:
the caller holds the membership row for `(tid, pid)` (the composite primary
key identifies at most one row) and the method stamps its `removed_date`
and appends a `remove` history row — the latter only when the row is
already persistent. -/
def remove_player (s : RosterDB) (tid : Nat) (pid : Int) (now : Int)
    (mid : Option Nat) : RosterDB :=
  match s.memberships.find? (fun tp => tp.team_id == tid && tp.player_id == pid) with
  | none => s
  | some _ =>
    let mems : List TeamPlayer := s.memberships.map (fun tp =>
      if tp.team_id == tid && tp.player_id == pid then
        { tp with removed_date := some now }
      else tp)
    if s.pending.contains (tid, pid) then
      { s with memberships := mems }
    else
      { s with memberships := mems,
               history := s.history ++ [⟨tid, pid, RosterAction.removeAction, mid⟩] }

/-- `TeamPlayer.add_player` (models.py lines 99-140).  If an active row for
the pair exists it is returned unchanged with no history entry; otherwise
the most recently added row for the pair (`order_by(added_date.desc())`)
is reopened by clearing `removed_date` when it was removed (the composite
primary key makes it the unique row for the pair), or a fresh row is
inserted; either way an `add` history entry is appended. -/
def add_player (s : RosterDB) (tid : Nat) (pid : Int) (cap : Bool)
    (mid : Option Nat) (now : Int) : RosterDB :=
  match s.memberships.find? (fun tp =>
      tp.team_id == tid && tp.player_id == pid && tp.removed_date == none) with
  | some _ => s
  | none =>
    let previous : Option TeamPlayer := (stableSortByLe (fun a b => decide (b.added_date ≤ a.added_date))
      (s.memberships.filter (fun tp => tp.team_id == tid && tp.player_id == pid))).head?
    let s1 : RosterDB :=
      match previous with
      | some prev =>
        if prev.removed_date ≠ none then
          { s with memberships := s.memberships.map (fun tp =>
              if tp.team_id == tid && tp.player_id == pid then
                { tp with removed_date := none }
              else tp) }
        else
          { s with memberships := s.memberships ++ [⟨tid, pid, cap, now, none⟩],
                   pending := s.pending ++ [(tid, pid)] }
      | none =>
        { s with memberships := s.memberships ++ [⟨tid, pid, cap, now, none⟩],
                 pending := s.pending ++ [(tid, pid)] }
    { s1 with history := s1.history ++ [⟨tid, pid, RosterAction.addAction, mid⟩] }

/-- HTTP error classes returned by `add_match_performance` before any write:
`badRequest` models the 400 validation responses, `notFound` the 404
responses.  Message strings are dropped (they are never compared). -/
inductive ApiError where
  | badRequest
  | notFound
deriving DecidableEq

/-- One element of the `players_performance` array of an
`add_match_performance` request, with the stat fields the handler reads
(all numeric in a well-typed request; `clean_sheet` is coerced to bool). -/
structure PerfInput where
  player_id : Int
  goals : Int
  assists : Int
  clean_sheet : Bool
  goals_conceded : Int
  yellow_cards : Int
  red_cards : Int
  minutes_played : Int
  bonus_points : Int
deriving DecidableEq

/-- The stat-validation loop over the `stats` dict in insertion order
(admin_routes.py lines 324-327): the first non-`clean_sheet` entry with a
negative value triggers the 400 response.  (`clean_sheet` is a bool, which
in Python is never `< 0`.)  Returns the index of the offending stat. -/
def firstNegativeStat (pp : PerfInput) : Option Nat :=
  if pp.goals < 0 then some 0
  else if pp.assists < 0 then some 1
  else if pp.goals_conceded < 0 then some 3
  else if pp.yellow_cards < 0 then some 4
  else if pp.red_cards < 0 then some 5
  else if pp.minutes_played < 0 then some 6
  else if pp.bonus_points < 0 then some 7
  else none

/-- The per-item validation loop of `add_match_performance`
(admin_routes.py lines 295-329), threading the `player_ids` seen so far:
a falsy (`0`) player id, a duplicate id, an unknown player, or a negative
stat aborts with the corresponding response, in that order. -/
def validatePerformances (db : DB) : List PerfInput → List Int → Except ApiError Unit
  | [], _ => Except.ok ()
  | pp :: rest, seen =>
    if pp.player_id == 0 then Except.error ApiError.badRequest
    else if seen.contains pp.player_id then Except.error ApiError.badRequest
    else if ¬ db.players.contains pp.player_id then Except.error ApiError.notFound
    else
      match firstNegativeStat pp with
      | some _ => Except.error ApiError.badRequest
      | none => validatePerformances db rest (seen ++ [pp.player_id])

/-- The match-selection part of an `add_match_performance` request:
an existing match id, or a name (opaque token) plus optional date for a
match to create. -/
structure MatchRequest where
  match_id : Option Nat
  match_name : Option Nat
  match_date : Option Int
deriving DecidableEq

/-- Autoincrement of the `match` primary key. -/
def freshMatchId (db : DB) : Nat :=
  db.games.foldl (fun a m => max a m.id) 0 + 1

/-- Autoincrement of the `player_performance` primary key. -/
def freshPerfId (db : DB) : Nat :=
  db.performances.foldl (fun a p => max a p.id) 0 + 1

/-- Upsert of one performance row (admin_routes.py lines 368-402): the
first existing row for `(player_id, match_id)` has its stats overwritten,
otherwise a new row is inserted; the row's `points` are then set to the
scoring evaluator's result. -/
def upsertPerformance (db : DB) (m : GameMatch) (pp : PerfInput) (pts : Int) : DB :=
  if (db.performances.any (fun p => p.player_id == pp.player_id && p.match_id == m.id)) then
    { db with performances := db.performances.map (fun p =>
        if p.player_id == pp.player_id && p.match_id == m.id then
          { p with goals := pp.goals, assists := pp.assists,
                   clean_sheet := pp.clean_sheet,
                   goals_conceded := pp.goals_conceded,
                   yellow_cards := pp.yellow_cards, red_cards := pp.red_cards,
                   minutes_played := pp.minutes_played,
                   bonus_points := pp.bonus_points, points := some pts }
        else p) }
  else
    { db with performances := db.performances ++
        [⟨freshPerfId db, pp.player_id, m.id, pp.goals, pp.assists,
          pp.clean_sheet, pp.goals_conceded, pp.yellow_cards, pp.red_cards,
          pp.minutes_played, pp.bonus_points, some pts⟩] }

/-- The write phase of `add_match_performance` after match resolution:
every validated item is upserted with its computed points, the session is
committed, and the full team-points recompute runs. -/
def applyPerformances (db : DB) (m : GameMatch) (items : List PerfInput)
    (calcPoints : PerfInput → Int) : Except ApiError Unit × DB :=
  let db1 := items.foldl (fun acc pp => upsertPerformance acc m pp (calcPoints pp)) db
  (Except.ok (), (update_team_total_points db1).2)

/-- `add_match_performance` (admin_routes.py lines 249-456).  The request
is rejected before any write when the items list is empty or the per-item
validation loop fails; afterwards the target match is resolved (404 for an
unknown id, 400 for a duplicate name or a missing name) — still before any
performance write — and finally the upserts, the commit and the recompute
run.  `calcPoints` stands for `scoring_rules.calculate_player_points`,
which is outside the embedded sources; `now` models `datetime.utcnow()`. -/
def add_match_performance (db : DB) (req : MatchRequest) (items : List PerfInput)
    (now : Int) (calcPoints : PerfInput → Int) : Except ApiError Unit × DB :=
  if items.isEmpty then (Except.error ApiError.badRequest, db)
  else
    match validatePerformances db items [] with
    | Except.error e => (Except.error e, db)
    | Except.ok () =>
      match req.match_id with
      | some mid =>
        match db.games.find? (fun m => m.id == mid) with
        | none => (Except.error ApiError.notFound, db)
        | some m => applyPerformances db m items calcPoints
      | none =>
        match req.match_name with
        | none => (Except.error ApiError.badRequest, db)
        | some nm =>
          if db.games.any (fun m => m.name == nm) then
            (Except.error ApiError.badRequest, db)
          else
            let d := req.match_date.getD now
            let m : GameMatch := ⟨freshMatchId db, nm, d⟩
            applyPerformances { db with games := db.games ++ [m] } m items calcPoints

theorem insertByLe_perm (le : α → α → Bool) (a : α) (l : List α) :
    (insertByLe le a l).Perm (a :: l) := by
  induction l with
  | nil => simp [insertByLe]
  | cons b bs ih =>
    simp only [insertByLe]
    by_cases h : le b a
    · simp only [h, if_true]
      exact (ih.cons b).trans (List.Perm.swap a b bs)
    · simp [h]

theorem foldl_insertByLe_perm (le : α → α → Bool) (l : List α) :
    ∀ acc : List α, (l.foldl (fun acc a => insertByLe le a acc) acc).Perm (acc ++ l) := by
  induction l with
  | nil => intro acc; simp
  | cons a as ih =>
    intro acc
    simp only [List.foldl_cons]
    refine (ih (insertByLe le a acc)).trans ?_
    have h1 : (insertByLe le a acc ++ as).Perm ((a :: acc) ++ as) :=
      List.Perm.append_right as (insertByLe_perm le a acc)
    exact h1.trans List.perm_middle.symm

theorem stableSortByLe_perm (le : α → α → Bool) (l : List α) :
    (stableSortByLe le l).Perm l := by
  simpa using foldl_insertByLe_perm le l []

theorem mem_stableSortByLe (le : α → α → Bool) (l : List α) (x : α) :
    x ∈ stableSortByLe le l ↔ x ∈ l :=
  (stableSortByLe_perm le l).mem_iff

theorem sum_map_stableSortByLe (le : α → α → Bool) (l : List α) (f : α → Int) :
    ((stableSortByLe le l).map f).sum = (l.map f).sum :=
  List.Perm.sum_eq (List.Perm.map f (stableSortByLe_perm le l))

theorem map_eq_self_of_mem {f : α → α} {l : List α} (h : ∀ x ∈ l, f x = x) :
    l.map f = l := by
  induction l with
  | nil => rfl
  | cons a as ih => simp [h a (by simp), ih (fun x hx => h x (by simp [hx]))]

theorem eq_of_map_eq_self {f : α → α} {l : List α} (h : l.map f = l) :
    ∀ x ∈ l, f x = x := by
  induction l with
  | nil => simp
  | cons a as ih =>
    simp only [List.map_cons, List.cons.injEq] at h
    intro x hx
    rcases List.mem_cons.1 hx with hx | hx
    · exact hx ▸ h.1
    · exact ih h.2 x hx

theorem filter_eq_nil_of_none {p : α → Bool} {l : List α}
    (h : ∀ x ∈ l, p x = false) : l.filter p = [] := by
  induction l with
  | nil => rfl
  | cons a as ih =>
    simp [List.filter_cons, h a (by simp), ih (fun x hx => h x (by simp [hx]))]

theorem filter_filter_eq_of_imp {p q : α → Bool} {l : List α}
    (h : ∀ a ∈ l, p a = true → q a = true) :
    (l.filter q).filter p = l.filter p := by
  induction l with
  | nil => rfl
  | cons a as ih =>
    have ih2 := ih (fun x hx hp => h x (by simp [hx]) hp)
    by_cases hq : q a = true
    · simp [List.filter_cons, hq, ih2]
    · have hp : p a = false := by
        cases hpa : p a
        · rfl
        · exact absurd (h a (by simp) hpa) (by simp [hq])
      simp [List.filter_cons, hq, hp, ih2]

theorem dictGetD_nil (k : Nat) (d : Int) : dictGetD [] k d = d := rfl

theorem dictGetD_cons (a : Nat × Int) (rest : List (Nat × Int)) (k : Nat) (d : Int) :
    dictGetD (a :: rest) k d = if a.fst = k then a.snd else dictGetD rest k d := by
  by_cases h : a.fst = k
  · rw [dictGetD, List.find?_cons_of_pos _ (by simpa using h), if_pos h]
  · rw [dictGetD, List.find?_cons_of_neg _ (by simpa using h), if_neg h]
    rfl

theorem dictSet_nil (k : Nat) (v : Int) : dictSet [] k v = [(k, v)] := rfl

theorem dictSet_cons (a : Nat × Int) (rest : List (Nat × Int)) (k : Nat) (v : Int) :
    dictSet (a :: rest) k v =
      if a.fst = k then (k, v) :: rest else a :: dictSet rest k v := by
  by_cases h : a.fst = k
  · simp [dictSet, h]
  · simp [dictSet, h]

theorem dictGetD_set_self (d : List (Nat × Int)) (k : Nat) (v : Int) :
    dictGetD (dictSet d k v) k 0 = v := by
  induction d with
  | nil => simp [dictSet_nil, dictGetD_cons]
  | cons a rest ih =>
    rw [dictSet_cons]
    by_cases h : a.fst = k
    · simp [h, dictGetD_cons]
    · simp [h, dictGetD_cons, ih]

theorem dictGetD_set_ne (d : List (Nat × Int)) (k k2 : Nat) (v : Int)
    (h : k2 ≠ k) : dictGetD (dictSet d k v) k2 0 = dictGetD d k2 0 := by
  induction d with
  | nil => simp [dictSet_nil, dictGetD_cons, dictGetD_nil, Ne.symm h]
  | cons a rest ih =>
    rw [dictSet_cons]
    by_cases hk : a.fst = k
    · rw [if_pos hk, dictGetD_cons, dictGetD_cons, if_neg (by simpa using Ne.symm h),
        if_neg (by simp [hk, Ne.symm h])]
    · rw [if_neg hk, dictGetD_cons, dictGetD_cons]
      by_cases hk2 : a.fst = k2
      · simp [hk2]
      · simp [hk2, ih]

theorem performancePoints_eq_zero_of_notPlayed (perfs : List PlayerPerformance)
    (m : GameMatch) (tp : TeamPlayer) (h : playedInMatch perfs m tp = false) :
    performancePoints tp (perfFor perfs m.id tp.player_id) = 0 := by
  unfold playedInMatch at h
  unfold performancePoints
  cases hp : perfFor perfs m.id tp.player_id with
  | none => rfl
  | some p =>
    rw [hp] at h
    cases hpts : p.points with
    | none => simp [hpts]
    | some v => simp [hpts] at h

/-- The `match_players > 0` guard in the source never changes the value
added: when no active player has a usable performance, every summand is
already zero. -/
theorem teamMatchDelta_eq_sum (perfs : List PlayerPerformance)
    (tps : List TeamPlayer) (m : GameMatch) :
    teamMatchDelta perfs tps m =
      ((tps.filter (fun tp => isActiveAt tp m.date)).map
        (fun tp => performancePoints tp (perfFor perfs m.id tp.player_id))).sum := by
  unfold teamMatchDelta
  set active := tps.filter (fun tp => isActiveAt tp m.date) with hactive
  by_cases h : active.countP (playedInMatch perfs m) > 0
  · simp [h]
  · have hz : active.countP (playedInMatch perfs m) = 0 := Nat.eq_zero_of_not_pos h
    have hnone : ∀ tp ∈ active, playedInMatch perfs m tp = false := by
      intro tp htp
      have := List.countP_eq_zero.1 hz tp htp
      simpa using this
    have : ((active.map
        (fun tp => performancePoints tp (perfFor perfs m.id tp.player_id))).sum) = 0 := by
      apply List.sum_eq_zero
      intro x hx
      rcases List.mem_map.1 hx with ⟨tp, htp, rfl⟩
      exact performancePoints_eq_zero_of_notPlayed perfs m tp (hnone tp htp)
    simp [h, this]

/-- C2: for an active membership whose performance row for the match holds
points `p`, the recompute adds `2 * p` to the team's total for that match
when the membership's `is_captain` flag is set, and exactly `p` otherwise. -/
theorem claim_C2_captain_doubling (perfs : List PlayerPerformance)
    (l1 l2 : List TeamPlayer) (tp : TeamPlayer) (m : GameMatch)
    (perf : PlayerPerformance) (p : Int)
    (hact : isActiveAt tp m.date = true)
    (hperf : perfFor perfs m.id tp.player_id = some perf)
    (hpts : perf.points = some p) :
    teamMatchDelta perfs (l1 ++ tp :: l2) m =
      teamMatchDelta perfs (l1 ++ l2) m +
        (if tp.is_captain then 2 * p else p) := by
  rw [teamMatchDelta_eq_sum, teamMatchDelta_eq_sum]
  rw [List.filter_append, List.filter_append, List.filter_cons]
  simp only [hact, if_true]
  rw [List.map_append, List.map_cons, List.sum_append, List.sum_cons,
    List.map_append, List.sum_append]
  have hcontrib : performancePoints tp (perfFor perfs m.id tp.player_id) =
      if tp.is_captain then 2 * p else p := by
    rw [hperf]
    unfold performancePoints
    by_cases hc : tp.is_captain <;> simp [hpts, hc, Int.mul_comm]
  rw [hcontrib]
  ring

theorem claim_C2_witness :
    teamMatchDelta [⟨1, 7, 1, 0, 0, false, 0, 0, 0, 0, 0, some 4⟩]
      ([] ++ ⟨1, 7, true, 0, none⟩ :: []) ⟨1, 1, 10⟩ =
      teamMatchDelta [⟨1, 7, 1, 0, 0, false, 0, 0, 0, 0, 0, some 4⟩]
        ([] ++ []) ⟨1, 1, 10⟩ + (if true then 2 * 4 else 4) :=
  claim_C2_captain_doubling [⟨1, 7, 1, 0, 0, false, 0, 0, 0, 0, 0, some 4⟩]
    [] [] ⟨1, 7, true, 0, none⟩ ⟨1, 1, 10⟩
    ⟨1, 7, 1, 0, 0, false, 0, 0, 0, 0, 0, some 4⟩ 4 (by decide) rfl rfl

/-- C1: during the recompute, a membership is counted active for a match at
timestamp `t` iff `added_date ≤ t` and the `removed_date` is null or
strictly greater than `t`; the add boundary is inclusive and the remove
boundary exclusive. -/
theorem claim_C1_active_interval (tp : TeamPlayer) (t : Int) :
    (isActiveAt tp t = true ↔
      (tp.added_date ≤ t ∧
        (tp.removed_date = none ∨ ∃ r, tp.removed_date = some r ∧ r > t)))
    ∧ (tp.added_date = t → tp.removed_date = none → isActiveAt tp t = true)
    ∧ (tp.removed_date = some t → isActiveAt tp t = false) := by
  refine ⟨?_, ?_, ?_⟩
  · cases h : tp.removed_date with
    | none => simp [isActiveAt, h]
    | some r => simp [isActiveAt, h]
  · intro h1 h2
    simp [isActiveAt, h1, h2]
  · intro h
    simp [isActiveAt, h]

theorem claim_C1_witness :
    isActiveAt ⟨1, 7, false, 5, none⟩ 5 = true ∧
    isActiveAt ⟨1, 7, false, 3, some 5⟩ 5 = false :=
  ⟨(claim_C1_active_interval ⟨1, 7, false, 5, none⟩ 5).2.1 rfl rfl,
   (claim_C1_active_interval ⟨1, 7, false, 3, some 5⟩ 5).2.2 rfl⟩

/-- C9: with no matches, or with matches but no teams, the recompute
returns an empty mapping and leaves the database — in particular every
team's stored `total_points` — exactly as it was. -/
theorem claim_C9_empty_guards (db : DB)
    (h : db.games = [] ∨ db.teams = []) :
    update_team_total_points db = ([], db) := by
  rcases h with h | h
  · simp [update_team_total_points, sortMatchesByDate, stableSortByLe, h]
  · unfold update_team_total_points
    by_cases hm : (sortMatchesByDate db.games).isEmpty
    · simp [hm]
    · simp [hm, h]

theorem claim_C9_witness :
    update_team_total_points ⟨[], [], [⟨1, 1, 99⟩], [], []⟩ =
      ([], ⟨[], [], [⟨1, 1, 99⟩], [], []⟩) :=
  claim_C9_empty_guards ⟨[], [], [⟨1, 1, 99⟩], [], []⟩ (Or.inl rfl)

/-- C7: the recompute stages every team's new total and commits once; a
failed commit rolls everything back (the returned state is the input state
and the failure is surfaced), and in every outcome the stored state is
either entirely the old totals or entirely the new ones — never a mixture. -/
theorem claim_C7_atomic_commit (db : DB) :
    ((sortMatchesByDate db.games).isEmpty = false → db.teams.isEmpty = false →
      update_team_total_points_r db false = (Except.error (), db))
    ∧ (∀ ok : Bool, (update_team_total_points_r db ok).2 = db ∨
        (update_team_total_points_r db ok).2.teams =
          writeTotals db.teams (computeTeamPoints db)) := by
  constructor
  · intro h1 h2
    simp [update_team_total_points_r, h1, h2]
  · intro ok
    unfold update_team_total_points_r
    by_cases h1 : (sortMatchesByDate db.games).isEmpty
    · simp [h1]
    · by_cases h2 : db.teams.isEmpty
      · simp [h1, h2]
      · cases ok
        · simp [h1, h2]
        · simp [h1, h2]

theorem teamPointsFor_congr (db1 db2 : DB) (tid : Nat)
    (hg : db1.games = db2.games) (htp : db1.team_players = db2.team_players)
    (hp : db1.performances = db2.performances) :
    teamPointsFor db1 tid = teamPointsFor db2 tid := by
  unfold teamPointsFor
  rw [hg, htp, hp]

theorem initTeamPoints_congr_aux (teams1 teams2 : List Team)
    (h : teams1.map Team.id = teams2.map Team.id) :
    ∀ d : List (Nat × Int),
      teams1.foldl (fun d t => dictSet d t.id 0) d =
      teams2.foldl (fun d t => dictSet d t.id 0) d := by
  induction teams1 generalizing teams2 with
  | nil =>
    cases teams2 with
    | nil => intro d; rfl
    | cons b bs => simp at h
  | cons a as ih =>
    cases teams2 with
    | nil => simp at h
    | cons b bs =>
      simp only [List.map_cons, List.cons.injEq] at h
      intro d
      simp only [List.foldl_cons, h.1]
      exact ih bs h.2 (dictSet d b.id 0)

theorem initTeamPoints_congr (teams1 teams2 : List Team)
    (h : teams1.map Team.id = teams2.map Team.id) :
    initTeamPoints teams1 = initTeamPoints teams2 :=
  initTeamPoints_congr_aux teams1 teams2 h []

theorem accumulateTeams_cons (db : DB) (a : Team) (as : List Team)
    (d : List (Nat × Int)) :
    accumulateTeams db (a :: as) d =
      accumulateTeams db as (dictSet d a.id (dictGetD d a.id 0 + teamPointsFor db a.id)) :=
  rfl

theorem accumulateTeams_congr_db (db1 db2 : DB)
    (htp : ∀ tid, teamPointsFor db1 tid = teamPointsFor db2 tid)
    (teams : List Team) (d : List (Nat × Int)) :
    accumulateTeams db1 teams d = accumulateTeams db2 teams d := by
  unfold accumulateTeams
  simp only [htp]

theorem accumulateTeams_congr_ids (db : DB) (teams1 teams2 : List Team)
    (hids : teams1.map Team.id = teams2.map Team.id) :
    ∀ d : List (Nat × Int), accumulateTeams db teams1 d = accumulateTeams db teams2 d := by
  induction teams1 generalizing teams2 with
  | nil =>
    cases teams2 with
    | nil => intro d; rfl
    | cons b bs => simp at hids
  | cons a as ih =>
    cases teams2 with
    | nil => simp at hids
    | cons b bs =>
      simp only [List.map_cons, List.cons.injEq] at hids
      intro d
      rw [accumulateTeams_cons, accumulateTeams_cons, hids.1]
      exact ih bs hids.2 _

theorem writeTotals_map_id (teams : List Team) (pts : List (Nat × Int)) :
    (writeTotals teams pts).map Team.id = teams.map Team.id := by
  unfold writeTotals
  rw [List.map_map]
  rfl

theorem writeTotals_writeTotals (teams : List Team) (p1 p2 : List (Nat × Int)) :
    writeTotals (writeTotals teams p1) p2 = writeTotals teams p2 := by
  unfold writeTotals
  rw [List.map_map]
  rfl

theorem writeTotals_isEmpty (teams : List Team) (pts : List (Nat × Int)) :
    (writeTotals teams pts).isEmpty = teams.isEmpty := by
  unfold writeTotals
  cases teams <;> rfl

theorem computeTeamPoints_after_write (db : DB) (pts : List (Nat × Int)) :
    computeTeamPoints { db with teams := writeTotals db.teams pts } =
      computeTeamPoints db := by
  unfold computeTeamPoints
  have hids := writeTotals_map_id db.teams pts
  rw [initTeamPoints_congr _ _ (by simpa using hids)]
  rw [accumulateTeams_congr_db { db with teams := writeTotals db.teams pts } db
    (fun tid => teamPointsFor_congr _ _ tid rfl rfl rfl)]
  exact accumulateTeams_congr_ids db _ _ (by simpa using hids) _

theorem perfFor_filter_eq (q : PlayerPerformance → Bool)
    (perfs : List PlayerPerformance) (mid : Nat) (pid : Int)
    (h : ∀ p ∈ perfs, p.match_id = mid → p.player_id = pid → q p = true) :
    perfFor (perfs.filter q) mid pid = perfFor perfs mid pid := by
  unfold perfFor
  have hswap := @List.filter_comm PlayerPerformance
    (fun p => p.match_id == mid) q perfs
  rw [hswap]
  rw [filter_filter_eq_of_imp ?h2]
  case h2 =>
    intro a ha hB
    have hmem := List.mem_filter.1 ha
    exact h a hmem.1 (by simpa using hmem.2) (by simpa using hB)

theorem teamMatchDelta_filter_eq (q : PlayerPerformance → Bool)
    (perfs : List PlayerPerformance) (tps : List TeamPlayer) (m : GameMatch)
    (h : ∀ tp ∈ tps, isActiveAt tp m.date = true →
      ∀ p ∈ perfs, p.match_id = m.id → p.player_id = tp.player_id → q p = true) :
    teamMatchDelta (perfs.filter q) tps m = teamMatchDelta perfs tps m := by
  unfold teamMatchDelta
  have hperf : ∀ tp ∈ tps.filter (fun tp => isActiveAt tp m.date),
      perfFor (perfs.filter q) m.id tp.player_id = perfFor perfs m.id tp.player_id := by
    intro tp htp
    have hm := List.mem_filter.1 htp
    exact perfFor_filter_eq q perfs m.id tp.player_id
      (fun p hp h1 h2 => h tp hm.1 (by simpa using hm.2) p hp h1 h2)
  have hmap : (tps.filter (fun tp => isActiveAt tp m.date)).map
        (fun tp => performancePoints tp (perfFor (perfs.filter q) m.id tp.player_id)) =
      (tps.filter (fun tp => isActiveAt tp m.date)).map
        (fun tp => performancePoints tp (perfFor perfs m.id tp.player_id)) :=
    List.map_congr_left (fun tp htp => by rw [hperf tp htp])
  have hcount : (tps.filter (fun tp => isActiveAt tp m.date)).countP
        (playedInMatch (perfs.filter q) m) =
      (tps.filter (fun tp => isActiveAt tp m.date)).countP (playedInMatch perfs m) :=
    List.countP_congr (fun tp htp => by unfold playedInMatch; rw [hperf tp htp])
  simp only [hmap, hcount]

theorem mem_of_mem_sorted_team_players (db : DB) (tid : Nat) (tp : TeamPlayer)
    (h : tp ∈ sortTeamPlayersByAdded
      (db.team_players.filter (fun tp => tp.team_id == tid))) :
    tp ∈ db.team_players ∧ tp.team_id = tid := by
  have h2 := (mem_stableSortByLe _ _ tp).1 h
  have h3 := List.mem_filter.1 h2
  exact ⟨h3.1, by simpa using h3.2⟩

/-- C3: when no membership of player `X` on team `tid` is active at match
`M`'s timestamp, deleting `X`'s performance rows for `M` does not change the
team's recomputed total — those points contribute nothing. -/
theorem claim_C3_nonmember_exclusion (db : DB) (tid : Nat) (X : Int) (M : GameMatch)
    (hM : M ∈ db.games)
    (hids : (db.games.map (fun m => m.id)).Nodup)
    (hno : ∀ tp ∈ db.team_players, tp.team_id = tid → tp.player_id = X →
      isActiveAt tp M.date = false) :
    teamPointsFor db tid =
      teamPointsFor { db with performances := db.performances.filter (fun p => ¬ (p.player_id == X && p.match_id == M.id)) } tid := by
  unfold teamPointsFor
  refine congrArg List.sum (List.map_congr_left ?_).symm
  intro m hmem
  have hmg : m ∈ db.games := (mem_stableSortByLe _ _ m).1 hmem
  apply teamMatchDelta_filter_eq
  intro tp htp hact p _ hpm hpp
  by_cases hid : m.id = M.id
  · have hmM : m = M := List.inj_on_of_nodup_map hids hmg hM hid
    subst hmM
    have htmem := mem_of_mem_sorted_team_players db tid tp htp
    have hX : tp.player_id ≠ X := by
      intro hEq
      have := hno tp htmem.1 htmem.2 hEq
      rw [hact] at this
      exact Bool.true_eq_false.mp this
    simp [hpp, hX]
  · have hne : p.match_id ≠ M.id := by rw [hpm]; exact hid
    simp [hne]

theorem claim_C3_witness :
    teamPointsFor ⟨[], [⟨1, 1, 10⟩], [], [⟨1, 7, false, 20, none⟩], [⟨1, 7, 1, 0, 0, false, 0, 0, 0, 0, 0, some 5⟩]⟩ 1 =
      teamPointsFor { (⟨[], [⟨1, 1, 10⟩], [], [⟨1, 7, false, 20, none⟩], [⟨1, 7, 1, 0, 0, false, 0, 0, 0, 0, 0, some 5⟩]⟩ : DB) with performances := (⟨[], [⟨1, 1, 10⟩], [], [⟨1, 7, false, 20, none⟩], [⟨1, 7, 1, 0, 0, false, 0, 0, 0, 0, 0, some 5⟩]⟩ : DB).performances.filter (fun p => ¬ (p.player_id == (7 : Int) && p.match_id == (1 : Nat))) } 1 :=
  claim_C3_nonmember_exclusion
    ⟨[], [⟨1, 1, 10⟩], [], [⟨1, 7, false, 20, none⟩], [⟨1, 7, 1, 0, 0, false, 0, 0, 0, 0, 0, some 5⟩]⟩
    1 7 ⟨1, 1, 10⟩ (by decide) (by decide) (by decide)

theorem db_write_twice (db : DB) (p1 p2 : List (Nat × Int)) :
    ({ db with teams := writeTotals (writeTotals db.teams p1) p2 } : DB) =
      { db with teams := writeTotals db.teams p2 } := by
  rw [writeTotals_writeTotals]

theorem update_ttp_of_nonempty (db : DB)
    (h1 : (sortMatchesByDate db.games).isEmpty = false)
    (h2 : db.teams.isEmpty = false) :
    update_team_total_points db =
      (computeTeamPoints db,
        { db with teams := writeTotals db.teams (computeTeamPoints db) }) := by
  unfold update_team_total_points
  simp [h1, h2]

theorem update_ttp_of_empty (db : DB)
    (h : (sortMatchesByDate db.games).isEmpty = true ∨ db.teams.isEmpty = true) :
    update_team_total_points db = ([], db) := by
  unfold update_team_total_points
  rcases h with h | h
  · simp [h]
  · by_cases h1 : (sortMatchesByDate db.games).isEmpty <;> simp [h1, h]

/-- C4: running the recompute twice with no intervening writes returns the
same team-to-points mapping both times, and the second run leaves every
team's stored `total_points` exactly as the first run left it. -/
theorem claim_C4_idempotent (db : DB) :
    (update_team_total_points (update_team_total_points db).2).1 =
      (update_team_total_points db).1 ∧
    (update_team_total_points (update_team_total_points db).2).2 =
      (update_team_total_points db).2 := by
  by_cases h1 : (sortMatchesByDate db.games).isEmpty
  · have e := update_ttp_of_empty db (Or.inl h1)
    rw [e]
    rw [e]
    exact ⟨rfl, rfl⟩
  · by_cases h2 : db.teams.isEmpty
    · have e := update_ttp_of_empty db (Or.inr h2)
      rw [e]
      rw [e]
      exact ⟨rfl, rfl⟩
    · have h1f : (sortMatchesByDate db.games).isEmpty = false := by simpa using h1
      have h2f : db.teams.isEmpty = false := by simpa using h2
      have e1 := update_ttp_of_nonempty db h1f h2f
      set db1 : DB :=
        { db with teams := writeTotals db.teams (computeTeamPoints db) } with hdb1
      have hg1 : db1.games = db.games := rfl
      have h1x : (sortMatchesByDate db1.games).isEmpty = false := by rw [hg1]; exact h1f
      have h2x : db1.teams.isEmpty = false := by
        rw [hdb1]
        show (writeTotals db.teams (computeTeamPoints db)).isEmpty = false
        rw [writeTotals_isEmpty]
        exact h2f
      have e2 := update_ttp_of_nonempty db1 h1x h2x
      have hc : computeTeamPoints db1 = computeTeamPoints db :=
        computeTeamPoints_after_write db (computeTeamPoints db)
      have hwrite : ({ db1 with teams := writeTotals db1.teams (computeTeamPoints db1) } : DB)
          = db1 := by
        rw [hc]
        exact db_write_twice db (computeTeamPoints db) (computeTeamPoints db)
      rw [e1]
      show (update_team_total_points db1).1 = computeTeamPoints db ∧
        (update_team_total_points db1).2 = db1
      rw [e2, hwrite, hc]
      exact ⟨rfl, rfl⟩

theorem accum_get_not_mem (db : DB) (k : Nat) :
    ∀ teams : List Team, k ∉ teams.map Team.id →
      ∀ d, dictGetD (accumulateTeams db teams d) k 0 = dictGetD d k 0 := by
  intro teams
  induction teams with
  | nil => intro _ d; rfl
  | cons a as ih =>
    intro h d
    rw [accumulateTeams_cons]
    simp only [List.map_cons, List.mem_cons, not_or] at h
    rw [ih h.2 _, dictGetD_set_ne _ _ _ _ h.1]

theorem accum_get_mem (db : DB) (t : Team) :
    ∀ teams : List Team, (teams.map Team.id).Nodup → t ∈ teams →
      ∀ d, dictGetD (accumulateTeams db teams d) t.id 0 =
        dictGetD d t.id 0 + teamPointsFor db t.id := by
  intro teams
  induction teams with
  | nil => intro _ h; cases h
  | cons a as ih =>
    intro hnd hmem d
    simp only [List.map_cons, List.nodup_cons] at hnd
    rw [accumulateTeams_cons]
    rcases List.mem_cons.1 hmem with rfl | hmem2
    · rw [accum_get_not_mem db t.id as hnd.1 _, dictGetD_set_self]
    · have hne : t.id ≠ a.id := by
        intro he
        exact hnd.1 (he ▸ List.mem_map.2 ⟨t, hmem2, rfl⟩)
      rw [ih hnd.2 hmem2 _, dictGetD_set_ne _ _ _ _ hne]

theorem dictGetD_eq_zero_of_vals (d : List (Nat × Int)) (k : Nat)
    (h : ∀ kv ∈ d, kv.snd = 0) : dictGetD d k 0 = 0 := by
  induction d with
  | nil => rfl
  | cons a rest ih =>
    rw [dictGetD_cons]
    by_cases hk : a.fst = k
    · rw [if_pos hk]
      exact h a (by simp)
    · rw [if_neg hk]
      exact ih (fun kv hkv => h kv (by simp [hkv]))

theorem dictSet_vals_zero (d : List (Nat × Int)) (k : Nat)
    (h : ∀ kv ∈ d, kv.snd = 0) : ∀ kv ∈ dictSet d k 0, kv.snd = 0 := by
  induction d with
  | nil =>
    intro kv hkv
    rw [dictSet_nil] at hkv
    simp at hkv
    simp [hkv]
  | cons a rest ih =>
    intro kv hkv
    rw [dictSet_cons] at hkv
    by_cases hk : a.fst = k
    · rw [if_pos hk] at hkv
      rcases List.mem_cons.1 hkv with rfl | hm
      · rfl
      · exact h kv (by simp [hm])
    · rw [if_neg hk] at hkv
      rcases List.mem_cons.1 hkv with rfl | hm
      · exact h kv (by simp)
      · exact ih (fun kv2 h2 => h kv2 (by simp [h2])) kv hm

theorem initTeamPoints_vals_zero :
    ∀ (teams : List Team) (d : List (Nat × Int)), (∀ kv ∈ d, kv.snd = 0) →
      ∀ kv ∈ teams.foldl (fun d t => dictSet d t.id 0) d, kv.snd = 0 := by
  intro teams
  induction teams with
  | nil => intro d h kv hkv; exact h kv hkv
  | cons a as ih =>
    intro d h kv hkv
    rw [List.foldl_cons] at hkv
    exact ih _ (dictSet_vals_zero d a.id h) kv hkv

theorem initTeamPoints_get (teams : List Team) (k : Nat) :
    dictGetD (initTeamPoints teams) k 0 = 0 :=
  dictGetD_eq_zero_of_vals _ _ (initTeamPoints_vals_zero teams [] (by simp))

theorem computeTeamPoints_get (db : DB) (t : Team)
    (hnd : (db.teams.map Team.id).Nodup) (hmem : t ∈ db.teams) :
    dictGetD (computeTeamPoints db) t.id 0 = teamPointsFor db t.id := by
  unfold computeTeamPoints
  rw [accum_get_mem db t db.teams hnd hmem _, initTeamPoints_get]
  ring

/-- The recompute's per-team total as a function of the three tables it
actually reads; `teamPointsFor` is definitionally this applied to the
state's fields. -/
def teamPointsOver (games : List GameMatch) (perfs : List PlayerPerformance)
    (tps : List TeamPlayer) : Int :=
  ((sortMatchesByDate games).map (fun m => teamMatchDelta perfs tps m)).sum

theorem sum_map_sortMatches (l : List GameMatch) (f : GameMatch → Int) :
    ((sortMatchesByDate l).map f).sum = (l.map f).sum := by
  unfold sortMatchesByDate
  exact sum_map_stableSortByLe _ _ _

theorem sum_map_filter_split (p : α → Bool) (f : α → Int) (l : List α) :
    (l.map f).sum =
      ((l.filter p).map f).sum + ((l.filter (fun a => !(p a))).map f).sum := by
  induction l with
  | nil => simp
  | cons a as ih =>
    cases h : p a with
    | true =>
      rw [List.filter_cons_of_pos (by simp [h]), List.filter_cons_of_neg (by simp [h])]
      simp only [List.map_cons, List.sum_cons, ih]
      ring
    | false =>
      rw [List.filter_cons_of_neg (by simp [h]), List.filter_cons_of_pos (by simp [h])]
      simp only [List.map_cons, List.sum_cons, ih]
      ring

theorem filter_beq_eq_single (l : List GameMatch) (M : GameMatch)
    (h : (l.map (fun m => m.id)).Nodup) (hM : M ∈ l) :
    l.filter (fun m => m.id == M.id) = [M] := by
  induction l with
  | nil => cases hM
  | cons a as ih =>
    simp only [List.map_cons, List.nodup_cons] at h
    rcases List.mem_cons.1 hM with rfl | hmem
    · rw [List.filter_cons_of_pos (by simp)]
      rw [filter_eq_nil_of_none ?hn]
      case hn =>
        intro x hx
        have hxid : ¬ x.id = M.id := fun he => h.1 (List.mem_map.2 ⟨x, hx, he⟩)
        simp [hxid]
    · have hne : ¬ a.id = M.id := fun he => h.1 (he ▸ List.mem_map.2 ⟨M, hmem, rfl⟩)
      rw [List.filter_cons_of_neg (by simp [hne])]
      exact ih h.2 hmem

theorem teamPointsOver_delete (games : List GameMatch)
    (perfs : List PlayerPerformance) (tps : List TeamPlayer) (M : GameMatch)
    (hM : M ∈ games) (hmids : (games.map (fun m => m.id)).Nodup) :
    teamPointsOver (games.filter (fun m => ¬ (m.id == M.id)))
        (perfs.filter (fun p => ¬ (p.match_id == M.id))) tps =
      teamPointsOver games perfs tps - teamMatchDelta perfs tps M := by
  unfold teamPointsOver
  rw [sum_map_sortMatches, sum_map_sortMatches]
  have hstep : ∀ m ∈ games.filter (fun m => ¬ (m.id == M.id)),
      teamMatchDelta (perfs.filter (fun p => ¬ (p.match_id == M.id))) tps m =
        teamMatchDelta perfs tps m := by
    intro m hm
    have hmm := List.mem_filter.1 hm
    have hne : m.id ≠ M.id := by simpa using hmm.2
    apply teamMatchDelta_filter_eq
    intro tp _ _ p _ hpm _
    simp [hpm, hne]
  rw [List.map_congr_left hstep]
  have hbridge : games.filter (fun m => ¬ (m.id == M.id)) =
      games.filter (fun m => !(m.id == M.id)) := by
    apply List.filter_congr
    intro m _
    by_cases hx : m.id = M.id <;> simp [hx]
  have hsplit := sum_map_filter_split (fun m => m.id == M.id)
    (fun m => teamMatchDelta perfs tps m) games
  rw [hbridge, hsplit, filter_beq_eq_single games M hmids hM]
  simp only [List.map_cons, List.map_nil, List.sum_cons, List.sum_nil]
  ring

theorem stableSortByLe_isEmpty (le : α → α → Bool) (l : List α) :
    (stableSortByLe le l).isEmpty = l.isEmpty := by
  have hlen := (stableSortByLe_perm le l).length_eq
  cases l with
  | nil => rfl
  | cons a as =>
    cases hs : stableSortByLe le (a :: as) with
    | nil => rw [hs] at hlen; simp at hlen
    | cons b bs => simp

theorem isEmpty_false_of_mem {l : List α} {x : α} (h : x ∈ l) :
    l.isEmpty = false := by
  cases l with
  | nil => cases h
  | cons a as => rfl

/-- C5 counterexample: in a consistent one-match database, deleting that
match leaves the recompute's early-return path, so the team keeps its old
total of 5 instead of dropping by the 5 points the match had contributed —
a residual remains, contradicting the claim. -/
theorem claim_C5_counterexample :
    (update_team_total_points ⟨[], [⟨1, 1, 0⟩], [⟨1, 1, 5⟩], [⟨1, 7, false, 0, none⟩], [⟨1, 7, 1, 0, 0, false, 0, 0, 0, 0, 0, some 5⟩]⟩).2 = ⟨[], [⟨1, 1, 0⟩], [⟨1, 1, 5⟩], [⟨1, 7, false, 0, none⟩], [⟨1, 7, 1, 0, 0, false, 0, 0, 0, 0, 0, some 5⟩]⟩ ∧
    matchContribution ⟨[], [⟨1, 1, 0⟩], [⟨1, 1, 5⟩], [⟨1, 7, false, 0, none⟩], [⟨1, 7, 1, 0, 0, false, 0, 0, 0, 0, 0, some 5⟩]⟩ 1 ⟨1, 1, 0⟩ = 5 ∧
    delete_game ⟨[], [⟨1, 1, 0⟩], [⟨1, 1, 5⟩], [⟨1, 7, false, 0, none⟩], [⟨1, 7, 1, 0, 0, false, 0, 0, 0, 0, 0, some 5⟩]⟩ 1 = some ⟨[], [], [⟨1, 1, 5⟩], [⟨1, 7, false, 0, none⟩], []⟩ ∧
    ¬ ((⟨[], [], [⟨1, 1, 5⟩], [⟨1, 7, false, 0, none⟩], []⟩ : DB).teams =
      (⟨[], [⟨1, 1, 0⟩], [⟨1, 1, 5⟩], [⟨1, 7, false, 0, none⟩], [⟨1, 7, 1, 0, 0, false, 0, 0, 0, 0, 0, some 5⟩]⟩ : DB).teams.map (fun t => { t with total_points := t.total_points - matchContribution ⟨[], [⟨1, 1, 0⟩], [⟨1, 1, 5⟩], [⟨1, 7, false, 0, none⟩], [⟨1, 7, 1, 0, 0, false, 0, 0, 0, 0, 0, some 5⟩]⟩ t.id ⟨1, 1, 0⟩ })) := by
  decide

/-- C5 (amended): provided the stored totals are consistent (the state is a
fixpoint of the recompute), primary keys are unique, at least one team
exists and at least one match remains after the deletion, deleting match
`M` and recomputing leaves every team's stored total equal to its previous
total minus exactly `M`'s contribution to that team. -/
theorem claim_C5_delete_match (db : DB) (M : GameMatch)
    (hM : M ∈ db.games)
    (hmids : (db.games.map (fun m => m.id)).Nodup)
    (htids : (db.teams.map Team.id).Nodup)
    (hcons : (update_team_total_points db).2 = db)
    (hteams : db.teams ≠ [])
    (hrem : ∃ m ∈ db.games, m.id ≠ M.id) :
    ∃ db2, delete_game db M.id = some db2 ∧
      db2.teams = db.teams.map
        (fun t => { t with total_points := t.total_points - matchContribution db t.id M }) := by
  obtain ⟨m0, hm0⟩ : ∃ m0, db.games.find? (fun m => m.id == M.id) = some m0 := by
    cases hf : db.games.find? (fun m => m.id == M.id) with
    | none =>
      have := List.find?_eq_none.1 hf M hM
      simp at this
    | some x => exact ⟨x, rfl⟩
  set db1 : DB := { db with games := db.games.filter (fun m => ¬ (m.id == M.id)), performances := db.performances.filter (fun p => ¬ (p.match_id == M.id)) } with hdb1
  have hdel : delete_game db M.id = some (update_team_total_points db1).2 := by
    unfold delete_game
    rw [hm0]
  obtain ⟨m1, hm1, hne1⟩ := hrem
  have hm1f : m1 ∈ db1.games := by
    rw [hdb1]
    exact List.mem_filter.2 ⟨hm1, by simpa using hne1⟩
  have hg1 : (sortMatchesByDate db1.games).isEmpty = false := by
    unfold sortMatchesByDate
    rw [stableSortByLe_isEmpty]
    exact isEmpty_false_of_mem hm1f
  have hg2 : db1.teams.isEmpty = false := by
    rw [hdb1]
    cases he : db.teams with
    | nil => exact absurd he hteams
    | cons a as => rfl
  have e1 := update_ttp_of_nonempty db1 hg1 hg2
  refine ⟨(update_team_total_points db1).2, hdel, ?_⟩
  rw [e1]
  show writeTotals db.teams (computeTeamPoints db1) =
    db.teams.map (fun t => { t with total_points := t.total_points - matchContribution db t.id M })
  have hg0 : (sortMatchesByDate db.games).isEmpty = false := by
    unfold sortMatchesByDate
    rw [stableSortByLe_isEmpty]
    exact isEmpty_false_of_mem hM
  have hg0t : db.teams.isEmpty = false := by
    cases he : db.teams with
    | nil => exact absurd he hteams
    | cons a as => rfl
  have e0 := update_ttp_of_nonempty db hg0 hg0t
  rw [e0] at hcons
  have hteams_eq : writeTotals db.teams (computeTeamPoints db) = db.teams :=
    congrArg DB.teams hcons
  unfold writeTotals at hteams_eq
  have hpoint : ∀ t ∈ db.teams, t.total_points = teamPointsFor db t.id := by
    intro t ht
    have hrow := eq_of_map_eq_self hteams_eq t ht
    have hval := congrArg Team.total_points hrow
    rw [← hval]
    show dictGetD (computeTeamPoints db) t.id 0 = teamPointsFor db t.id
    exact computeTeamPoints_get db t htids ht
  unfold writeTotals
  apply List.map_congr_left
  intro t ht
  have hv : dictGetD (computeTeamPoints db1) t.id 0 =
      t.total_points - matchContribution db t.id M := by
    have hget : dictGetD (computeTeamPoints db1) t.id 0 = teamPointsFor db1 t.id :=
      computeTeamPoints_get db1 t htids ht
    have hev1 : teamPointsFor db1 t.id =
        teamPointsOver (db.games.filter (fun m => ¬ (m.id == M.id)))
          (db.performances.filter (fun p => ¬ (p.match_id == M.id)))
          (sortTeamPlayersByAdded (db.team_players.filter (fun tp => tp.team_id == t.id))) := rfl
    have hev0 : teamPointsFor db t.id =
        teamPointsOver db.games db.performances
          (sortTeamPlayersByAdded (db.team_players.filter (fun tp => tp.team_id == t.id))) := rfl
    have hdelta := teamPointsOver_delete db.games db.performances
      (sortTeamPlayersByAdded (db.team_players.filter (fun tp => tp.team_id == t.id)))
      M hM hmids
    rw [hget, hev1, hdelta, ← hev0, ← hpoint t ht]
    rfl
  rw [hv]

theorem claim_C5_witness :
    ∃ db2, delete_game ⟨[], [⟨1, 1, 0⟩, ⟨2, 2, 10⟩], [⟨1, 1, 7⟩], [⟨1, 7, false, 0, none⟩], [⟨1, 7, 1, 0, 0, false, 0, 0, 0, 0, 0, some 3⟩, ⟨2, 7, 2, 0, 0, false, 0, 0, 0, 0, 0, some 4⟩]⟩ 2 = some db2 ∧
      db2.teams = (⟨[], [⟨1, 1, 0⟩, ⟨2, 2, 10⟩], [⟨1, 1, 7⟩], [⟨1, 7, false, 0, none⟩], [⟨1, 7, 1, 0, 0, false, 0, 0, 0, 0, 0, some 3⟩, ⟨2, 7, 2, 0, 0, false, 0, 0, 0, 0, 0, some 4⟩]⟩ : DB).teams.map (fun t => { t with total_points := t.total_points - matchContribution ⟨[], [⟨1, 1, 0⟩, ⟨2, 2, 10⟩], [⟨1, 1, 7⟩], [⟨1, 7, false, 0, none⟩], [⟨1, 7, 1, 0, 0, false, 0, 0, 0, 0, 0, some 3⟩, ⟨2, 7, 2, 0, 0, false, 0, 0, 0, 0, 0, some 4⟩]⟩ t.id ⟨2, 2, 10⟩ }) :=
  claim_C5_delete_match
    ⟨[], [⟨1, 1, 0⟩, ⟨2, 2, 10⟩], [⟨1, 1, 7⟩], [⟨1, 7, false, 0, none⟩], [⟨1, 7, 1, 0, 0, false, 0, 0, 0, 0, 0, some 3⟩, ⟨2, 7, 2, 0, 0, false, 0, 0, 0, 0, 0, some 4⟩]⟩
    ⟨2, 2, 10⟩ (by decide) (by decide) (by decide) (by decide) (by decide)
    ⟨⟨1, 1, 0⟩, by decide, by decide⟩

theorem claim_C7_witness :
    update_team_total_points_r ⟨[], [⟨1, 1, 0⟩], [⟨1, 1, 3⟩], [], []⟩ false =
      (Except.error (), ⟨[], [⟨1, 1, 0⟩], [⟨1, 1, 3⟩], [], []⟩) :=
  (claim_C7_atomic_commit ⟨[], [⟨1, 1, 0⟩], [⟨1, 1, 3⟩], [], []⟩).1 (by decide) (by decide)

theorem filter_map_of_pred_comm {f : α → α} {p : α → Bool}
    (hf : ∀ x, p (f x) = p x) (l : List α) :
    (l.map f).filter p = (l.filter p).map f := by
  induction l with
  | nil => rfl
  | cons a as ih =>
    cases h : p a with
    | true =>
      rw [List.map_cons, List.filter_cons_of_pos (by rw [hf]; exact h),
        List.filter_cons_of_pos h, List.map_cons, ih]
    | false =>
      rw [List.map_cons, List.filter_cons_of_neg (by rw [hf, h]; simp),
        List.filter_cons_of_neg (by simp [h]), ih]

theorem find?_active_eq_none (l : List TeamPlayer) (tid : Nat) (pid : Int)
    (h : ∀ x ∈ l, (x.team_id == tid && x.player_id == pid) = true →
      x.removed_date ≠ none) :
    l.find? (fun tp =>
      tp.team_id == tid && tp.player_id == pid && tp.removed_date == none) = none := by
  rw [List.find?_eq_none]
  intro x hx hpx
  simp only [Bool.and_eq_true] at hpx
  exact h x hx (by simp [hpx.1.1, hpx.1.2]) (by simpa using hpx.2)

theorem removedUpdate_pred_comm (tid : Nat) (pid : Int) (v : Option Int)
    (tp : TeamPlayer) :
    ((if tp.team_id == tid && tp.player_id == pid then
        { tp with removed_date := v } else tp).team_id == tid &&
      (if tp.team_id == tid && tp.player_id == pid then
        { tp with removed_date := v } else tp).player_id == pid) =
      (tp.team_id == tid && tp.player_id == pid) := by
  by_cases h : (tp.team_id == tid && tp.player_id == pid) = true
  · simp [h]
  · simp [h]

/-- C6: from a state with no membership row and no history for the pair,
the sequence add (commit), remove (commit), add-again leaves exactly one
membership row for the pair, that row's `removed_date` is null and its
`added_date` is the first add's, and the pair's history is exactly
add, remove, add — no second membership row is ever created. -/
theorem claim_C6_add_remove_readd (s0 : RosterDB) (tid : Nat) (pid : Int)
    (cap cap2 : Bool) (mid1 mid2 mid3 : Option Nat) (t1 t2 t3 : Int)
    (hmem : s0.memberships.filter
      (fun tp => tp.team_id == tid && tp.player_id == pid) = [])
    (hhist : s0.history.filter
      (fun h => h.team_id == tid && h.player_id == pid) = []) :
    (add_player (commitSession (remove_player (commitSession
        (add_player s0 tid pid cap mid1 t1)) tid pid t2 mid2))
        tid pid cap2 mid3 t3).memberships.filter
      (fun tp => tp.team_id == tid && tp.player_id == pid) =
        [⟨tid, pid, cap, t1, none⟩] ∧
    ((add_player (commitSession (remove_player (commitSession
        (add_player s0 tid pid cap mid1 t1)) tid pid t2 mid2))
        tid pid cap2 mid3 t3).history.filter
      (fun h => h.team_id == tid && h.player_id == pid)).map
        (fun h => h.action) =
      [RosterAction.addAction, RosterAction.removeAction, RosterAction.addAction] := by
  have hnof : ∀ x ∈ s0.memberships,
      ¬ ((x.team_id == tid && x.player_id == pid) = true) := by
    intro x hx hp
    have hm : x ∈ s0.memberships.filter
        (fun tp => tp.team_id == tid && tp.player_id == pid) :=
      List.mem_filter.2 ⟨hx, hp⟩
    rw [hmem] at hm
    cases hm
  have hfind1 : s0.memberships.find? (fun tp =>
      tp.team_id == tid && tp.player_id == pid && tp.removed_date == none) = none :=
    find?_active_eq_none s0.memberships tid pid
      (fun x hx hp => absurd hp (hnof x hx))
  have e1 : add_player s0 tid pid cap mid1 t1 =
      ⟨s0.memberships ++ [(⟨tid, pid, cap, t1, none⟩ : TeamPlayer)],
        s0.pending ++ [(tid, pid)],
        s0.history ++ [(⟨tid, pid, RosterAction.addAction, mid1⟩ : TeamPlayerHistory)]⟩ := by
    unfold add_player
    rw [hfind1, hmem]
    rfl
  rw [e1]
  have hfind3 : ∃ y, List.find?
      (fun tp => tp.team_id == tid && tp.player_id == pid)
      (s0.memberships ++ [(⟨tid, pid, cap, t1, none⟩ : TeamPlayer)]) = some y := by
    cases hf : List.find? (fun tp => tp.team_id == tid && tp.player_id == pid)
        (s0.memberships ++ [(⟨tid, pid, cap, t1, none⟩ : TeamPlayer)]) with
    | none =>
      have hcontr := List.find?_eq_none.1 hf
        (⟨tid, pid, cap, t1, none⟩ : TeamPlayer) (by simp)
      simp at hcontr
    | some y => exact ⟨y, rfl⟩
  obtain ⟨y3, hy3⟩ := hfind3
  have e3 : remove_player (commitSession
      (⟨s0.memberships ++ [(⟨tid, pid, cap, t1, none⟩ : TeamPlayer)],
        s0.pending ++ [(tid, pid)],
        s0.history ++ [(⟨tid, pid, RosterAction.addAction, mid1⟩ : TeamPlayerHistory)]⟩ : RosterDB))
      tid pid t2 mid2 =
      ⟨(s0.memberships ++ [(⟨tid, pid, cap, t1, none⟩ : TeamPlayer)]).map
          (fun tp => if tp.team_id == tid && tp.player_id == pid then
            { tp with removed_date := some t2 } else tp), [],
        (s0.history ++ [(⟨tid, pid, RosterAction.addAction, mid1⟩ : TeamPlayerHistory)]) ++
          [(⟨tid, pid, RosterAction.removeAction, mid2⟩ : TeamPlayerHistory)]⟩ := by
    unfold commitSession remove_player
    rw [hy3]
    rfl
  rw [e3]
  have hfilter3 : ((s0.memberships ++ [(⟨tid, pid, cap, t1, none⟩ : TeamPlayer)]).map
      (fun tp => if tp.team_id == tid && tp.player_id == pid then
        { tp with removed_date := some t2 } else tp)).filter
      (fun tp => tp.team_id == tid && tp.player_id == pid) =
      [(⟨tid, pid, cap, t1, some t2⟩ : TeamPlayer)] := by
    rw [filter_map_of_pred_comm (fun tp => removedUpdate_pred_comm tid pid (some t2) tp),
      List.filter_append, hmem, List.nil_append]
    rw [List.filter_cons_of_pos (by simp)]
    simp
  have hfind5 : ((s0.memberships ++ [(⟨tid, pid, cap, t1, none⟩ : TeamPlayer)]).map
      (fun tp => if tp.team_id == tid && tp.player_id == pid then
        { tp with removed_date := some t2 } else tp)).find?
      (fun tp => tp.team_id == tid && tp.player_id == pid &&
        tp.removed_date == none) = none := by
    apply find?_active_eq_none
    intro x hx hp
    have hm : x ∈ ((s0.memberships ++ [(⟨tid, pid, cap, t1, none⟩ : TeamPlayer)]).map
        (fun tp => if tp.team_id == tid && tp.player_id == pid then
          { tp with removed_date := some t2 } else tp)).filter
        (fun tp => tp.team_id == tid && tp.player_id == pid) :=
      List.mem_filter.2 ⟨hx, hp⟩
    rw [hfilter3] at hm
    rcases List.mem_singleton.1 hm with rfl
    simp
  have e5 : add_player
      (⟨((s0.memberships ++ [(⟨tid, pid, cap, t1, none⟩ : TeamPlayer)]).map
          (fun tp => if tp.team_id == tid && tp.player_id == pid then
            { tp with removed_date := some t2 } else tp)), [],
        ((s0.history ++ [(⟨tid, pid, RosterAction.addAction, mid1⟩ : TeamPlayerHistory)]) ++
          [(⟨tid, pid, RosterAction.removeAction, mid2⟩ : TeamPlayerHistory)])⟩ : RosterDB)
      tid pid cap2 mid3 t3 =
      ⟨((s0.memberships ++ [(⟨tid, pid, cap, t1, none⟩ : TeamPlayer)]).map
          (fun tp => if tp.team_id == tid && tp.player_id == pid then
            { tp with removed_date := some t2 } else tp)).map
          (fun tp => if tp.team_id == tid && tp.player_id == pid then
            { tp with removed_date := none } else tp), [],
        (((s0.history ++ [(⟨tid, pid, RosterAction.addAction, mid1⟩ : TeamPlayerHistory)]) ++
          [(⟨tid, pid, RosterAction.removeAction, mid2⟩ : TeamPlayerHistory)]) ++
          [(⟨tid, pid, RosterAction.addAction, mid3⟩ : TeamPlayerHistory)])⟩ := by
    unfold add_player
    rw [hfind5, hfilter3]
    rfl
  rw [commitSession, e5]
  constructor
  · rw [filter_map_of_pred_comm (fun tp => removedUpdate_pred_comm tid pid none tp),
      hfilter3]
    simp
  · rw [List.filter_append, List.filter_append, List.filter_append, hhist,
      List.nil_append]
    rw [List.filter_cons_of_pos (by simp), List.filter_cons_of_pos (by simp),
      List.filter_cons_of_pos (by simp)]
    simp

theorem claim_C6_witness :
    (add_player (commitSession (remove_player (commitSession
        (add_player ⟨[], [], []⟩ 1 7 true none 0)) 1 7 5 none))
        1 7 false none 9).memberships.filter
      (fun tp => tp.team_id == 1 && tp.player_id == 7) =
        [⟨1, 7, true, 0, none⟩] ∧
    ((add_player (commitSession (remove_player (commitSession
        (add_player ⟨[], [], []⟩ 1 7 true none 0)) 1 7 5 none))
        1 7 false none 9).history.filter
      (fun h => h.team_id == 1 && h.player_id == 7)).map
        (fun h => h.action) =
      [RosterAction.addAction, RosterAction.removeAction, RosterAction.addAction] :=
  claim_C6_add_remove_readd ⟨[], [], []⟩ 1 7 true false none none none 0 5 9 rfl rfl

/-- C10: on a pair whose single membership row is closed (`removed_date =
some r`), `add_player` reopens that same row: `removed_date` becomes null
while `added_date` (and `is_captain`) keep their original values, and the
reopened row passes the recompute's activity check for every timestamp from
the old removal time onwards — in particular throughout the gap between
removal and re-add. -/
theorem claim_C10_readd_keeps_interval (s : RosterDB) (tid : Nat) (pid : Int)
    (cap cap2 : Bool) (a r : Int) (mid : Option Nat) (t3 : Int)
    (hrow : s.memberships.filter
      (fun tp => tp.team_id == tid && tp.player_id == pid) =
      [⟨tid, pid, cap, a, some r⟩]) :
    (add_player s tid pid cap2 mid t3).memberships.filter
      (fun tp => tp.team_id == tid && tp.player_id == pid) =
      [⟨tid, pid, cap, a, none⟩] ∧
    (a ≤ r → ∀ t : Int, r ≤ t → isActiveAt ⟨tid, pid, cap, a, none⟩ t = true) := by
  have hfind : s.memberships.find? (fun tp =>
      tp.team_id == tid && tp.player_id == pid && tp.removed_date == none) = none := by
    apply find?_active_eq_none
    intro x hx hp
    have hm : x ∈ s.memberships.filter
        (fun tp => tp.team_id == tid && tp.player_id == pid) :=
      List.mem_filter.2 ⟨hx, hp⟩
    rw [hrow] at hm
    rcases List.mem_singleton.1 hm with rfl
    simp
  have e : add_player s tid pid cap2 mid t3 =
      ⟨s.memberships.map
          (fun tp => if tp.team_id == tid && tp.player_id == pid then
            { tp with removed_date := none } else tp), s.pending,
        s.history ++ [(⟨tid, pid, RosterAction.addAction, mid⟩ : TeamPlayerHistory)]⟩ := by
    unfold add_player
    rw [hfind, hrow]
    rfl
  rw [e]
  constructor
  · rw [filter_map_of_pred_comm (fun tp => removedUpdate_pred_comm tid pid none tp),
      hrow]
    simp
  · intro har t ht
    simp only [isActiveAt]
    simp
    omega

theorem claim_C10_witness :
    (add_player ⟨[⟨1, 7, true, 0, some 5⟩], [], []⟩ 1 7 false none 9).memberships.filter
      (fun tp => tp.team_id == 1 && tp.player_id == 7) = [⟨1, 7, true, 0, none⟩] ∧
    isActiveAt ⟨1, 7, true, 0, none⟩ 7 = true :=
  ⟨(claim_C10_readd_keeps_interval ⟨[⟨1, 7, true, 0, some 5⟩], [], []⟩ 1 7 true false
      0 5 none 9 rfl).1,
   (claim_C10_readd_keeps_interval ⟨[⟨1, 7, true, 0, some 5⟩], [], []⟩ 1 7 true false
      0 5 none 9 rfl).2 (by decide) 7 (by decide)⟩

theorem validate_ok_props (db : DB) :
    ∀ (items : List PerfInput) (seen : List Int),
      validatePerformances db items seen = Except.ok () →
      (items.map (fun pp => pp.player_id)).Nodup ∧
      (∀ pp ∈ items, firstNegativeStat pp = none) ∧
      (∀ pp ∈ items, pp.player_id ∉ seen) := by
  intro items
  induction items with
  | nil =>
    intro seen _
    exact ⟨List.nodup_nil, by simp, by simp⟩
  | cons pp rest ih =>
    intro seen h
    unfold validatePerformances at h
    by_cases h1 : (pp.player_id == 0) = true
    · simp [h1] at h
    · by_cases h2 : pp.player_id ∈ seen
      · simp [h1, h2] at h
      · by_cases h3 : pp.player_id ∈ db.players
        · cases h4 : firstNegativeStat pp with
          | some idx => simp [h1, h2, h3, h4] at h
          | none =>
            have hrec : validatePerformances db rest (seen ++ [pp.player_id]) =
                Except.ok () := by
              simpa [h1, h2, h3, h4] using h
            obtain ⟨hnd, hneg, hdis⟩ := ih _ hrec
            refine ⟨?_, ?_, ?_⟩
            · rw [List.map_cons, List.nodup_cons]
              refine ⟨?_, hnd⟩
              intro hmm
              rcases List.mem_map.1 hmm with ⟨q, hq, hqe⟩
              have hq2 := hdis q hq
              rw [hqe] at hq2
              exact hq2 (by simp)
            · intro q hq
              rcases List.mem_cons.1 hq with rfl | hq2
              · exact h4
              · exact hneg q hq2
            · intro q hq
              rcases List.mem_cons.1 hq with rfl | hq2
              · exact h2
              · intro hmem
                exact hdis q hq2 (by simp [hmem])
        · simp [h1, h2, h3] at h

theorem validate_no_notFound (db : DB) :
    ∀ (items : List PerfInput) (seen : List Int),
      (∀ pp ∈ items, pp.player_id ∈ db.players) →
      validatePerformances db items seen ≠ Except.error ApiError.notFound := by
  intro items
  induction items with
  | nil =>
    intro seen _ h
    simp [validatePerformances] at h
  | cons pp rest ih =>
    intro seen hall h
    unfold validatePerformances at h
    by_cases h1 : (pp.player_id == 0) = true
    · simp [h1] at h
    · by_cases h2 : pp.player_id ∈ seen
      · simp [h1, h2] at h
      · have h3 : pp.player_id ∈ db.players := hall pp (by simp)
        cases h4 : firstNegativeStat pp with
        | some idx => simp [h1, h2, h3, h4] at h
        | none =>
          have hrec : validatePerformances db rest (seen ++ [pp.player_id]) =
              Except.error ApiError.notFound := by
            simpa [h1, h2, h3, h4] using h
          exact ih _ (fun q hq => hall q (by simp [hq])) hrec

/-- C8 counterexample: a submission whose second entry carries a negative
stat but whose first entry references an unknown player is rejected with
the not-found error, not the validation (bad-request) error the claim
promises — though still before any mutation. -/
theorem claim_C8_counterexample :
    firstNegativeStat ⟨1, -1, 0, false, 0, 0, 0, 0, 0⟩ ≠ none ∧
    add_match_performance ⟨[1], [], [], [], []⟩ ⟨none, some 5, none⟩
      [⟨2, 0, 0, false, 0, 0, 0, 0, 0⟩, ⟨1, -1, 0, false, 0, 0, 0, 0, 0⟩]
      0 (fun _ => 0) =
      (Except.error ApiError.notFound, ⟨[1], [], [], [], []⟩) ∧
    ApiError.notFound ≠ ApiError.badRequest :=
  ⟨by decide, rfl, by decide⟩

/-- C8 (amended): a submission containing a negative numeric stat or a
duplicate player id is rejected with an error before any mutation — the
database is returned unchanged, so no match is created, no performance row
is touched and no team total changes; the error is the 400 validation
error whenever every entry's player id is non-falsy and references an
existing player (an earlier failing entry may instead surface the 404
not-found error). -/
theorem claim_C8_reject_before_mutation (db : DB) (req : MatchRequest)
    (items : List PerfInput) (now : Int) (calcPoints : PerfInput → Int)
    (hbad : (∃ pp ∈ items, firstNegativeStat pp ≠ none) ∨
      ¬ (items.map (fun pp => pp.player_id)).Nodup) :
    (∃ e, add_match_performance db req items now calcPoints = (Except.error e, db)) ∧
    ((∀ pp ∈ items, pp.player_id ∈ db.players) →
      add_match_performance db req items now calcPoints =
        (Except.error ApiError.badRequest, db)) := by
  have hne : items ≠ [] := by
    intro he
    subst he
    rcases hbad with ⟨pp, hpp, _⟩ | hnd
    · cases hpp
    · exact hnd List.nodup_nil
  have hnotok : validatePerformances db items [] ≠ Except.ok () := by
    intro hok
    obtain ⟨hnd, hneg, _⟩ := validate_ok_props db items [] hok
    rcases hbad with ⟨pp, hpp, hpneg⟩ | hnd2
    · exact hpneg (hneg pp hpp)
    · exact hnd2 hnd
  have hempty : items.isEmpty = false := by
    cases items with
    | nil => exact absurd rfl hne
    | cons a as => rfl
  obtain ⟨e, he⟩ : ∃ e, validatePerformances db items [] = Except.error e := by
    cases hv : validatePerformances db items [] with
    | ok u =>
      cases u
      exact absurd hv hnotok
    | error e => exact ⟨e, rfl⟩
  constructor
  · refine ⟨e, ?_⟩
    unfold add_match_performance
    rw [hempty, he]
    rfl
  · intro hall
    have hnotnf : e ≠ ApiError.notFound := by
      intro hee
      rw [hee] at he
      exact validate_no_notFound db items [] hall he
    have hebr : e = ApiError.badRequest := by
      cases e with
      | badRequest => rfl
      | notFound => exact absurd rfl hnotnf
    unfold add_match_performance
    rw [hempty, he, hebr]
    rfl

theorem claim_C8_witness :
    add_match_performance ⟨[1], [], [], [], []⟩ ⟨none, some 5, none⟩
      [⟨1, -1, 0, false, 0, 0, 0, 0, 0⟩] 0 (fun _ => 0) =
      (Except.error ApiError.badRequest, ⟨[1], [], [], [], []⟩) :=
  (claim_C8_reject_before_mutation ⟨[1], [], [], [], []⟩ ⟨none, some 5, none⟩
    [⟨1, -1, 0, false, 0, 0, 0, 0, 0⟩] 0 (fun _ => 0)
    (Or.inl ⟨⟨1, -1, 0, false, 0, 0, 0, 0, 0⟩, by decide, by decide⟩)).2 (by decide)

end DSFL
